import Mathlib

/-!
Verification of the transaction serialization/parsing layer of the
`mastering-taproot` tutorial repository.

Bytes are modelled as `List Nat` (each entry intended `< 256`).  Python's
`struct.unpack` on a short slice raises an exception; fallible reads are
modelled with `Option`, where `none` is an uncaught Python exception.
-/

namespace MasteringTaproot

/-- Little-endian interpretation of a byte list (`struct.unpack` of `<H`, `<I`, `<Q`). -/
def leNat : List Nat → Nat
  | [] => 0
  | b :: t => b + 256 * leNat t

/-- Little-endian encoding of `n` into exactly `w` bytes (`struct.pack`). -/
def leBytes : Nat → Nat → List Nat
  | 0, _ => []
  | w + 1, n => (n % 256) :: leBytes w (n / 256)

theorem leBytes_length (w n : Nat) : (leBytes w n).length = w := by
  induction w generalizing n with
  | zero => rfl
  | succ k ih => simp [leBytes, ih]

theorem leNat_leBytes (w n : Nat) (h : n < 256 ^ w) : leNat (leBytes w n) = n := by
  induction w generalizing n with
  | zero => simp at h; simp [leBytes, leNat, h]
  | succ k ih =>
    have hdiv : n / 256 < 256 ^ k := by
      rw [Nat.div_lt_iff_lt_mul (by omega)]
      calc n < 256 ^ (k + 1) := h
        _ = 256 ^ k * 256 := by rw [Nat.pow_succ]
    simp [leBytes, leNat, ih (n / 256) hdiv]
    omega

theorem leBytes_lt (w n : Nat) : ∀ b ∈ leBytes w n, b < 256 := by
  induction w generalizing n with
  | zero => intro b hb; simp [leBytes] at hb
  | succ k ih =>
    intro b hb
    simp [leBytes] at hb
    rcases hb with h | h
    · omega
    · exact ih (n / 256) b h

/-- Python slice `data[offset:offset+w]` fed to `struct.unpack`: succeeds only when
the slice has exactly `w` bytes, returning the little-endian value. -/
def readLE (data : List Nat) (offset w : Nat) : Option Nat :=
  let s := (data.drop offset).take w
  if s.length = w then some (leNat s) else none

/-- `parse_varint` from `src/code/chapter04/03_parse_segwit_transaction.py`
(lines 22–32): reads the prefix byte and branches; a too-short buffer is a
`struct.error`/`IndexError`, modelled as `none`. -/
def parse_varint (data : List Nat) (offset : Nat) : Option (Nat × Nat) :=
  match data[offset]? with
  | none => none
  | some first_byte =>
    if first_byte < 0xfd then some (first_byte, offset + 1)
    else if first_byte = 0xfd then (readLE data (offset + 1) 2).map fun n => (n, offset + 3)
    else if first_byte = 0xfe then (readLE data (offset + 1) 4).map fun n => (n, offset + 5)
    else (readLE data (offset + 1) 8).map fun n => (n, offset + 9)

/-- Modelled from the spec: the repository has no VarInt encoder under `src/`
(its scripts only decode); §4.1 of the spec defines `encode`: 1 byte if
`n < 0xfd`; `0xfd` + 2-byte little-endian if `n ≤ 0xffff`; `0xfe` + 4-byte LE
if `n ≤ 0xffffffff`; else `0xff` + 8-byte LE. -/
def encode_varint (n : Nat) : List Nat :=
  if n < 0xfd then [n]
  else if n ≤ 0xffff then 0xfd :: leBytes 2 n
  else if n ≤ 0xffffffff then 0xfe :: leBytes 4 n
  else 0xff :: leBytes 8 n

example : parse_varint (encode_varint 300) 0 = some (300, 3) := by decide
example : parse_varint (encode_varint 3) 0 = some (3, 1) := by decide
example : parse_varint (encode_varint 70000) 0 = some (70000, 5) := by decide

/-! ## The parsed-transaction record built by `parse_segwit_transaction`

The Python function returns a dict of display strings; hex renderings are kept
here as the underlying byte lists / numbers (the rendering `bytes.hex()` /
`f-string` is injective on them, so nothing is lost). -/

/-- One entry of the `inputs` list the parser builds (lines 81–87).  `txid` holds
the display-order (reversed) bytes, as the Python stores `txid_bytes[::-1].hex()`. -/
structure ParsedInput where
  txid : List Nat
  vout : Nat
  script_sig : List Nat
  script_sig_len : Nat
  sequence : Nat
deriving Repr, DecidableEq

/-- One entry of the `outputs` list (lines 110–115). -/
structure ParsedOutput where
  value : Nat
  script_len : Nat
  script_pubkey : List Nat
deriving Repr, DecidableEq

/-- One witness-stack item (lines 133–136). -/
structure ParsedWitnessItem where
  len : Nat
  data : List Nat
deriving Repr, DecidableEq

/-- The dict returned at lines 145–157. -/
structure ParsedTx where
  version : Nat
  is_segwit : Bool
  marker : Option Nat
  flag : Option Nat
  input_count : Nat
  inputs : List ParsedInput
  output_count : Nat
  outputs : List ParsedOutput
  witnesses : List (List ParsedWitnessItem)
  locktime : Nat
  total_size : Nat
deriving Repr, DecidableEq

/-- The SegWit marker/flag detection of `parse_segwit_transaction`
(lines 44–54): if the byte at offset 4 exists and is `0x00` it is consumed as
the marker and the next byte is consumed as the flag — the flag's value is
*not* checked; reading a missing flag byte is an `IndexError` (`none`).
Returns `(is_segwit, marker, flag, offset)`. -/
def parseMarkerFlag (data : List Nat) : Option (Bool × Option Nat × Option Nat × Nat) :=
  match data[4]? with
  | some 0 =>
    match data[5]? with
    | none => none
    | some f => some (true, some 0, some f, 6)
  | _ => some (false, none, none, 4)

/-- The input-parsing loop of `parse_segwit_transaction` (lines 59–87).
`count` is the remaining number of iterations of `range(input_count)`.
A truncated txid `break`s, returning the inputs accumulated so far; a short
`vout`/`sequence` slice or varint payload is a `struct.error` (`none`). -/
def parseInputs (data : List Nat) : Nat → Nat → Option (List ParsedInput × Nat)
  | 0, offset => some ([], offset)
  | n + 1, offset =>
    if data.length < offset + 32 then some ([], offset)
    else
      let txid_bytes := (data.drop offset).take 32
      match readLE data (offset + 32) 4 with
      | none => none
      | some vout =>
        match parse_varint data (offset + 36) with
        | none => none
        | some (script_sig_len, o2) =>
          let script_sig := (data.drop o2).take script_sig_len
          match readLE data (o2 + script_sig_len) 4 with
          | none => none
          | some sequence =>
            match parseInputs data n (o2 + script_sig_len + 4) with
            | none => none
            | some (rest, o3) =>
              some ({ txid := txid_bytes.reverse, vout := vout,
                      script_sig := script_sig, script_sig_len := script_sig_len,
                      sequence := sequence } :: rest, o3)

/-- The output-parsing loop (lines 92–115), with its three `break` conditions. -/
def parseOutputs (data : List Nat) : Nat → Nat → Option (List ParsedOutput × Nat)
  | 0, offset => some ([], offset)
  | n + 1, offset =>
    if data.length < offset + 8 then some ([], offset)
    else
      let value := leNat ((data.drop offset).take 8)
      if data.length ≤ offset + 8 then some ([], offset + 8)
      else
        match parse_varint data (offset + 8) with
        | none => none
        | some (script_len, o2) =>
          if data.length < o2 + script_len then some ([], o2)
          else
            let script_pubkey := (data.drop o2).take script_len
            match parseOutputs data n (o2 + script_len) with
            | none => none
            | some (rest, o3) =>
              some ({ value := value, script_len := script_len,
                      script_pubkey := script_pubkey } :: rest, o3)

/-- The inner witness-item loop (lines 125–136). -/
def parseWitnessItems (data : List Nat) : Nat → Nat → Option (List ParsedWitnessItem × Nat)
  | 0, offset => some ([], offset)
  | j + 1, offset =>
    if data.length ≤ offset then some ([], offset)
    else
      match parse_varint data offset with
      | none => none
      | some (item_len, o2) =>
        if data.length < o2 + item_len then some ([], o2)
        else
          let item_data := (data.drop o2).take item_len
          match parseWitnessItems data j (o2 + item_len) with
          | none => none
          | some (rest, o3) =>
            some ({ len := item_len, data := item_data } :: rest, o3)

/-- The outer per-input witness loop (lines 119–137). -/
def parseWitnesses (data : List Nat) : Nat → Nat → Option (List (List ParsedWitnessItem) × Nat)
  | 0, offset => some ([], offset)
  | i + 1, offset =>
    if data.length ≤ offset then some ([], offset)
    else
      match parse_varint data offset with
      | none => none
      | some (witness_item_count, o2) =>
        match parseWitnessItems data witness_item_count o2 with
        | none => none
        | some (witness_items, o3) =>
          match parseWitnesses data i o3 with
          | none => none
          | some (rest, o4) =>
            some (witness_items :: rest, o4)

/-- `parse_segwit_transaction` (lines 35–157) up to but excluding the locktime
step; returns the record (locktime still at its initialisation value 0) and the
offset reached. -/
def parseBody (data : List Nat) : Option (ParsedTx × Nat) :=
  match readLE data 0 4 with
  | none => none
  | some version =>
    match parseMarkerFlag data with
    | none => none
    | some (is_segwit, marker, flag, o1) =>
      match parse_varint data o1 with
      | none => none
      | some (input_count, o2) =>
        match parseInputs data input_count o2 with
        | none => none
        | some (inputs, o3) =>
          match parse_varint data o3 with
          | none => none
          | some (output_count, o4) =>
            match parseOutputs data output_count o4 with
            | none => none
            | some (outputs, o5) =>
              match (if is_segwit = true ∧ o5 < data.length
                     then parseWitnesses data input_count o5
                     else some ([], o5)) with
              | none => none
              | some (witnesses, o6) =>
                some ({ version := version, is_segwit := is_segwit,
                        marker := marker, flag := flag,
                        input_count := input_count, inputs := inputs,
                        output_count := output_count, outputs := outputs,
                        witnesses := witnesses, locktime := 0,
                        total_size := data.length }, o6)

/-- `parse_segwit_transaction` (lines 35–157): the body followed by the
locktime step (lines 139–143): locktime stays 0 when fewer than 4 bytes
remain. -/
def parse_segwit_transaction (data : List Nat) : Option ParsedTx :=
  match parseBody data with
  | none => none
  | some (t, offset) =>
    if offset + 4 ≤ data.length then
      some { t with locktime := leNat ((data.drop offset).take 4) }
    else some t

/-! ## Transaction model and serializer

Modelled from the spec: serialization in the repository's scripts is delegated
to the external `bitcoinutils` library (e.g. `Transaction(...).serialize()` in
`src/code/chapter04/02_create_segwit_transaction.py`), so no serializer exists
under `src/`.  The definitions below follow §3 (data model) and §4.5
(`serialize`) of the spec. -/

/-- §3 TxInput: txid held in display (big-endian) order, reversed on the wire. -/
structure TxInput where
  txid : List Nat
  vout : Nat
  script_sig : List Nat
  sequence : Nat
deriving Repr, DecidableEq

/-- §3 TxOutput. -/
structure TxOutput where
  value : Nat
  script_pubkey : List Nat
deriving Repr, DecidableEq

/-- §3 Transaction: a witness stack is a list of byte strings, index-aligned
with the inputs when the transaction carries witness data. -/
structure Transaction where
  version : Nat
  inputs : List TxInput
  outputs : List TxOutput
  has_segwit : Bool
  witnesses : List (List (List Nat))
  locktime : Nat
deriving Repr, DecidableEq

/-- Modelled from the spec (§4.5): one serialized input — 32-byte txid reversed
to wire order, 4-byte LE vout, VarInt-prefixed unlocking script, 4-byte LE
sequence. -/
def serializeInput (i : TxInput) : List Nat :=
  i.txid.reverse ++ leBytes 4 i.vout ++ encode_varint i.script_sig.length
    ++ i.script_sig ++ leBytes 4 i.sequence

/-- Modelled from the spec (§4.5): one serialized output — 8-byte LE value,
VarInt-prefixed locking script. -/
def serializeOutput (o : TxOutput) : List Nat :=
  leBytes 8 o.value ++ encode_varint o.script_pubkey.length ++ o.script_pubkey

/-- Modelled from the spec (§4.5): one witness stack — VarInt item count, each
item VarInt-length-prefixed. -/
def serializeWitnessStack (w : List (List Nat)) : List Nat :=
  encode_varint w.length ++ (w.map fun item => encode_varint item.length ++ item).flatten

/-- Modelled from the spec (§4.5): `serialize(tx)` — version (4 LE) · [if
witness-carrying: marker `0x00`, flag `0x01`] · VarInt input count · inputs ·
VarInt output count · outputs · [if witness-carrying: per-input witness
stacks] · locktime (4 LE). -/
def serialize (tx : Transaction) : List Nat :=
  leBytes 4 tx.version
    ++ (if tx.has_segwit then [0x00, 0x01] else [])
    ++ encode_varint tx.inputs.length
    ++ (tx.inputs.map serializeInput).flatten
    ++ encode_varint tx.outputs.length
    ++ (tx.outputs.map serializeOutput).flatten
    ++ (if tx.has_segwit then (tx.witnesses.map serializeWitnessStack).flatten else [])
    ++ leBytes 4 tx.locktime

/-! ### Field-width discipline (§3's declared widths) -/

/-- All entries are bytes. -/
def wfBytes (l : List Nat) : Prop := ∀ b ∈ l, b < 256

/-- Declared widths for an input: 32-byte txid, u32 vout and sequence,
script length representable as a VarInt (u64). -/
def wfInput (i : TxInput) : Prop :=
  i.txid.length = 32 ∧ wfBytes i.txid ∧ i.vout < 2 ^ 32 ∧
    wfBytes i.script_sig ∧ i.script_sig.length < 2 ^ 64 ∧ i.sequence < 2 ^ 32

/-- Declared widths for an output: u64 value, VarInt-representable script length. -/
def wfOutput (o : TxOutput) : Prop :=
  o.value < 2 ^ 64 ∧ wfBytes o.script_pubkey ∧ o.script_pubkey.length < 2 ^ 64

/-- Declared widths for a witness stack. -/
def wfStack (w : List (List Nat)) : Prop :=
  w.length < 2 ^ 64 ∧ ∀ item ∈ w, wfBytes item ∧ item.length < 2 ^ 64

/-- A transaction whose field values are within the declared widths; per §3 the
witness sequence is index-aligned with the inputs when witness-carrying, and
absent otherwise. -/
def wfTx (tx : Transaction) : Prop :=
  tx.version < 2 ^ 32 ∧ tx.inputs.length < 2 ^ 64 ∧ tx.outputs.length < 2 ^ 64 ∧
    (∀ i ∈ tx.inputs, wfInput i) ∧ (∀ o ∈ tx.outputs, wfOutput o) ∧
    tx.locktime < 2 ^ 32 ∧
    (if tx.has_segwit then
      tx.witnesses.length = tx.inputs.length ∧ ∀ w ∈ tx.witnesses, wfStack w
     else tx.witnesses = [])

/-! ### What a faithful re-parse of a serialized transaction looks like -/

/-- The parsed record corresponding to an original input. -/
def expectInput (i : TxInput) : ParsedInput :=
  { txid := i.txid, vout := i.vout, script_sig := i.script_sig,
    script_sig_len := i.script_sig.length, sequence := i.sequence }

/-- The parsed record corresponding to an original output. -/
def expectOutput (o : TxOutput) : ParsedOutput :=
  { value := o.value, script_len := o.script_pubkey.length,
    script_pubkey := o.script_pubkey }

/-- The parsed record corresponding to an original witness item. -/
def expectItem (item : List Nat) : ParsedWitnessItem :=
  { len := item.length, data := item }

/-- The fully parsed record corresponding to an original transaction. -/
def expectTx (tx : Transaction) : ParsedTx :=
  { version := tx.version, is_segwit := tx.has_segwit,
    marker := if tx.has_segwit then some 0 else none,
    flag := if tx.has_segwit then some 1 else none,
    input_count := tx.inputs.length, inputs := tx.inputs.map expectInput,
    output_count := tx.outputs.length, outputs := tx.outputs.map expectOutput,
    witnesses := tx.witnesses.map (List.map expectItem),
    locktime := tx.locktime, total_size := (serialize tx).length }

/-! ## Offset-tracking toolkit

`seg data offset X rest` says the buffer, viewed from `offset`, is exactly
`X ++ rest`; every parsing lemma walks such segments. -/

/-- From position `offset`, the buffer reads `X` then `rest`. -/
def seg (data : List Nat) (offset : Nat) (X rest : List Nat) : Prop :=
  offset ≤ data.length ∧ data.drop offset = X ++ rest

theorem seg_length {data X rest : List Nat} {offset : Nat} (h : seg data offset X rest) :
    data.length = offset + X.length + rest.length := by
  obtain ⟨ho, hd⟩ := h
  have := List.length_drop offset data
  rw [hd, List.length_append] at this
  omega

theorem seg_next {data X Y rest : List Nat} {offset : Nat}
    (h : seg data offset X (Y ++ rest)) : seg data (offset + X.length) Y rest := by
  obtain ⟨ho, hd⟩ := h
  have hlen := seg_length ⟨ho, hd⟩
  refine ⟨by simp [List.length_append] at hlen ⊢; omega, ?_⟩
  have h1 : data.drop (offset + X.length) = (data.drop offset).drop X.length := by
    rw [List.drop_drop]
  rw [h1, hd]
  exact List.drop_left X (Y ++ rest)

theorem seg_take {data X rest : List Nat} {offset : Nat} (h : seg data offset X rest) :
    (data.drop offset).take X.length = X := by
  rw [h.2, List.take_left]

theorem seg_head {data X rest : List Nat} {offset b : Nat}
    (h : seg data offset (b :: X) rest) : data[offset]? = some b := by
  have h0 := List.getElem?_drop data offset 0
  rw [h.2] at h0
  simpa using h0.symm

theorem seg_readLE {data rest : List Nat} {offset w n : Nat}
    (h : seg data offset (leBytes w n) rest) (hn : n < 256 ^ w) :
    readLE data offset w = some n := by
  have htake := seg_take h
  rw [leBytes_length] at htake
  simp [readLE, htake, leBytes_length, leNat_leBytes w n hn]

theorem encode_varint_length_pos (n : Nat) : 1 ≤ (encode_varint n).length := by
  unfold encode_varint
  repeat' split
  all_goals simp

/-- Decoding a VarInt at a position where its standard encoding sits yields the
encoded value and advances past it. -/
theorem seg_parse_varint {data rest : List Nat} {offset n : Nat}
    (h : seg data offset (encode_varint n) rest) (hn : n < 2 ^ 64) :
    parse_varint data offset = some (n, offset + (encode_varint n).length) := by
  by_cases h1 : n < 0xfd
  · have he : encode_varint n = [n] := by simp [encode_varint, h1]
    rw [he] at h ⊢
    have hb := seg_head h
    unfold parse_varint
    rw [hb]
    simp [h1]
  · by_cases h2 : n ≤ 0xffff
    · have he : encode_varint n = 0xfd :: leBytes 2 n := by
        simp [encode_varint, h1, h2]
      rw [he] at h ⊢
      have hb := seg_head h
      have h' : seg data (offset + 1) (leBytes 2 n) rest := by
        have hs := seg_next (X := [0xfd]) (Y := leBytes 2 n) ⟨h.1, by simpa using h.2⟩
        simpa using hs
      have hr := seg_readLE h' (by norm_num; omega)
      unfold parse_varint
      rw [hb]
      norm_num [hr, leBytes_length]
    · by_cases h3 : n ≤ 0xffffffff
      · have he : encode_varint n = 0xfe :: leBytes 4 n := by
          simp [encode_varint, h1, h2, h3]
        rw [he] at h ⊢
        have hb := seg_head h
        have h' : seg data (offset + 1) (leBytes 4 n) rest := by
          have hs := seg_next (X := [0xfe]) (Y := leBytes 4 n) ⟨h.1, by simpa using h.2⟩
          simpa using hs
        have hr := seg_readLE h' (by norm_num; omega)
        unfold parse_varint
        rw [hb]
        norm_num [hr, leBytes_length]
      · have he : encode_varint n = 0xff :: leBytes 8 n := by
          simp [encode_varint, h1, h2, h3]
        rw [he] at h ⊢
        have hb := seg_head h
        have h' : seg data (offset + 1) (leBytes 8 n) rest := by
          have hs := seg_next (X := [0xff]) (Y := leBytes 8 n) ⟨h.1, by simpa using h.2⟩
          simpa using hs
        have hr := seg_readLE h' (by norm_num; omega)
        unfold parse_varint
        rw [hb]
        norm_num [hr, leBytes_length]

theorem seg_congr {data X rest : List Nat} {o o' : Nat}
    (h : seg data o X rest) (he : o = o') : seg data o' X rest := he ▸ h

theorem seg_split {data X Y rest : List Nat} {offset : Nat}
    (h : seg data offset (X ++ Y) rest) : seg data offset X (Y ++ rest) :=
  ⟨h.1, by rw [h.2, List.append_assoc]⟩

theorem serializeInput_length (i : TxInput) (h32 : i.txid.length = 32) :
    (serializeInput i).length =
      40 + (encode_varint i.script_sig.length).length + i.script_sig.length := by
  simp [serializeInput, leBytes_length, h32]
  omega

/-- Walking the input loop over the serialized form of a well-formed input list
returns exactly those inputs and stops right after them. -/
theorem parseInputs_seg (l : List TxInput) (data rest : List Nat) (offset : Nat)
    (hwf : ∀ i ∈ l, wfInput i)
    (h : seg data offset ((l.map serializeInput).flatten) rest) :
    parseInputs data l.length offset =
      some (l.map expectInput, offset + ((l.map serializeInput).flatten).length) := by
  induction l generalizing offset rest with
  | nil => simp [parseInputs]
  | cons i t ih =>
    obtain ⟨h32, htb, hvw, hsb, hsw, hqw⟩ := hwf i (by simp)
    have hflat : ((i :: t).map serializeInput).flatten
        = serializeInput i ++ (t.map serializeInput).flatten := by simp
    rw [hflat] at h
    set T := (t.map serializeInput).flatten with hT
    set eL := (encode_varint i.script_sig.length).length with heL
    set sL := i.script_sig.length with hsL
    have h5 : seg data offset i.txid.reverse
        (leBytes 4 i.vout ++ (encode_varint sL ++ (i.script_sig ++ (leBytes 4 i.sequence ++ (T ++ rest))))) := by
      have h1 := seg_split h
      rw [serializeInput] at h1
      have h2 := seg_split h1
      have h3 := seg_split h2
      have h4 := seg_split h3
      have h5 := seg_split h4
      refine ⟨h5.1, ?_⟩
      simp only [h5.2, List.append_assoc]
    have hArev : i.txid.reverse.length = 32 := by rw [List.length_reverse, h32]
    have hB : seg data (offset + 32) (leBytes 4 i.vout)
        (encode_varint sL ++ (i.script_sig ++ (leBytes 4 i.sequence ++ (T ++ rest)))) :=
      seg_congr (seg_next h5) (by rw [hArev])
    have hC : seg data (offset + 36) (encode_varint sL)
        (i.script_sig ++ (leBytes 4 i.sequence ++ (T ++ rest))) :=
      seg_congr (seg_next hB) (by rw [leBytes_length])
    have hD : seg data (offset + 36 + eL) i.script_sig
        (leBytes 4 i.sequence ++ (T ++ rest)) :=
      seg_congr (seg_next hC) (by rw [heL])
    have hE : seg data (offset + 36 + eL + sL) (leBytes 4 i.sequence) (T ++ rest) :=
      seg_congr (seg_next hD) (by rw [hsL])
    have hTseg : seg data (offset + 36 + eL + sL + 4) T rest :=
      seg_congr (seg_next hE) (by rw [leBytes_length])
    have hlen := seg_length h5
    have hnotrunc : ¬ data.length < offset + 32 := by
      simp [List.length_append] at hlen
      omega
    have htake : (data.drop offset).take 32 = i.txid.reverse := by
      have ht := seg_take h5
      rwa [hArev] at ht
    have hvout : readLE data (offset + 32) 4 = some i.vout :=
      seg_readLE hB (by norm_num; omega)
    have hssl : parse_varint data (offset + 36) = some (sL, offset + 36 + eL) := by
      have := seg_parse_varint hC (by omega)
      rwa [← heL] at this
    have hsig : (data.drop (offset + 36 + eL)).take sL = i.script_sig := by
      have ht := seg_take hD
      rwa [← hsL] at ht
    have hseq : readLE data (offset + 36 + eL + sL) 4 = some i.sequence :=
      seg_readLE hE (by norm_num; omega)
    have hrec := ih rest (offset + 36 + eL + sL + 4) (fun j hj => hwf j (by simp [hj])) hTseg
    simp only [List.length_cons, parseInputs, if_neg hnotrunc, htake, hvout, hssl, hsig,
      hseq, hrec, List.map_cons]
    have hslen := serializeInput_length i h32
    have hTlen : T.length = (List.map (List.length ∘ serializeInput) t).sum := by
      rw [hT, List.length_flatten, List.map_map]
    simp [expectInput, List.reverse_reverse, hflat, List.length_append, leBytes_length]
    omega

theorem serializeOutput_length (o : TxOutput) :
    (serializeOutput o).length =
      8 + (encode_varint o.script_pubkey.length).length + o.script_pubkey.length := by
  simp [serializeOutput, leBytes_length]
  omega

/-- Walking the output loop over the serialized form of a well-formed output
list returns exactly those outputs and stops right after them. -/
theorem parseOutputs_seg (l : List TxOutput) (data rest : List Nat) (offset : Nat)
    (hwf : ∀ o ∈ l, wfOutput o)
    (h : seg data offset ((l.map serializeOutput).flatten) rest) :
    parseOutputs data l.length offset =
      some (l.map expectOutput, offset + ((l.map serializeOutput).flatten).length) := by
  induction l generalizing offset rest with
  | nil => simp [parseOutputs]
  | cons o t ih =>
    obtain ⟨hvv, hpb, hpw⟩ := hwf o (by simp)
    have hflat : ((o :: t).map serializeOutput).flatten
        = serializeOutput o ++ (t.map serializeOutput).flatten := by simp
    rw [hflat] at h
    set T := (t.map serializeOutput).flatten with hT
    set eL := (encode_varint o.script_pubkey.length).length with heL
    set pL := o.script_pubkey.length with hpL
    have hA : seg data offset (leBytes 8 o.value)
        (encode_varint pL ++ (o.script_pubkey ++ (T ++ rest))) := by
      have h1 := seg_split h
      rw [serializeOutput] at h1
      have h2 := seg_split h1
      have h3 := seg_split h2
      refine ⟨h3.1, ?_⟩
      simp only [h3.2, List.append_assoc]
    have hB : seg data (offset + 8) (encode_varint pL)
        (o.script_pubkey ++ (T ++ rest)) :=
      seg_congr (seg_next hA) (by rw [leBytes_length])
    have hC : seg data (offset + 8 + eL) o.script_pubkey (T ++ rest) :=
      seg_congr (seg_next hB) (by rw [heL])
    have hTseg : seg data (offset + 8 + eL + pL) T rest :=
      seg_congr (seg_next hC) (by rw [hpL])
    have hepos := encode_varint_length_pos pL
    have hlenA := seg_length hA
    have hlenB := seg_length hB
    have hlenC := seg_length hC
    have hno1 : ¬ data.length < offset + 8 := by
      rw [leBytes_length] at hlenA
      omega
    have hval : leNat ((data.drop offset).take 8) = o.value := by
      have ht := seg_take hA
      rw [leBytes_length] at ht
      rw [ht]
      exact leNat_leBytes 8 o.value (by norm_num; omega)
    have hno2 : ¬ data.length ≤ offset + 8 := by
      simp [List.length_append] at hlenB
      omega
    have hplen : parse_varint data (offset + 8) = some (pL, offset + 8 + eL) := by
      have hp := seg_parse_varint hB (by omega)
      rwa [← heL] at hp
    have hno3 : ¬ data.length < offset + 8 + eL + pL := by
      simp [List.length_append, ← hpL] at hlenC
      omega
    have hspk : (data.drop (offset + 8 + eL)).take pL = o.script_pubkey := by
      have ht := seg_take hC
      rwa [← hpL] at ht
    have hrec := ih rest (offset + 8 + eL + pL) (fun j hj => hwf j (by simp [hj])) hTseg
    simp only [List.length_cons, parseOutputs, if_neg hno1, if_neg hno2, if_neg hno3,
      hval, hplen, hspk, hrec, List.map_cons]
    have hslen := serializeOutput_length o
    have hTlen : T.length = (List.map (List.length ∘ serializeOutput) t).sum := by
      rw [hT, List.length_flatten, List.map_map]
    simp [expectOutput, hflat, List.length_append, leBytes_length]
    omega

/-- Walking the witness-item loop over the serialized items of one stack. -/
theorem parseWitnessItems_seg (w : List (List Nat)) (data rest : List Nat) (offset : Nat)
    (hwf : ∀ item ∈ w, wfBytes item ∧ item.length < 2 ^ 64)
    (h : seg data offset ((w.map fun item => encode_varint item.length ++ item).flatten) rest) :
    parseWitnessItems data w.length offset =
      some (w.map expectItem,
        offset + ((w.map fun item => encode_varint item.length ++ item).flatten).length) := by
  induction w generalizing offset rest with
  | nil => simp [parseWitnessItems]
  | cons i t ih =>
    obtain ⟨hib, hiw⟩ := hwf i (by simp)
    have hflat : (((i :: t).map fun item => encode_varint item.length ++ item).flatten)
        = (encode_varint i.length ++ i)
            ++ ((t.map fun item => encode_varint item.length ++ item).flatten) := by simp
    rw [hflat] at h
    set T := ((t.map fun item => encode_varint item.length ++ item).flatten) with hT
    set eL := (encode_varint i.length).length with heL
    set iL := i.length with hiL
    have hA : seg data offset (encode_varint iL) (i ++ (T ++ rest)) := by
      have h1 := seg_split h
      have h2 := seg_split h1
      refine ⟨h2.1, ?_⟩
      simp only [h2.2, List.append_assoc]
    have hB : seg data (offset + eL) i (T ++ rest) :=
      seg_congr (seg_next hA) (by rw [heL])
    have hTseg : seg data (offset + eL + iL) T rest :=
      seg_congr (seg_next hB) (by rw [hiL])
    have hepos := encode_varint_length_pos iL
    have hlenA := seg_length hA
    have hlenB := seg_length hB
    have hno1 : ¬ data.length ≤ offset := by
      simp [List.length_append, ← heL] at hlenA
      omega
    have hvar : parse_varint data offset = some (iL, offset + eL) := by
      have hp := seg_parse_varint hA (by omega)
      rwa [← heL] at hp
    have hno2 : ¬ data.length < offset + eL + iL := by
      simp [List.length_append, ← hiL] at hlenB
      omega
    have hitem : (data.drop (offset + eL)).take iL = i := by
      have ht := seg_take hB
      rwa [← hiL] at ht
    have hrec := ih rest (offset + eL + iL) (fun j hj => hwf j (by simp [hj])) hTseg
    simp only [List.length_cons, parseWitnessItems, if_neg hno1, if_neg hno2,
      hvar, hitem, hrec, List.map_cons]
    have hTlen : T.length = (List.map (List.length ∘ fun item => encode_varint item.length ++ item) t).sum := by
      rw [hT, List.length_flatten, List.map_map]
    have hbridge : (List.map (List.length ∘ fun item => encode_varint item.length ++ item) t).sum
        = (List.map (fun item => (encode_varint item.length ++ item).length) t).sum := rfl
    simp [expectItem, hflat, List.length_append]
    omega

/-- Walking the per-input witness loop over the serialized stacks. -/
theorem parseWitnesses_seg (ws : List (List (List Nat))) (data rest : List Nat) (offset : Nat)
    (hwf : ∀ w ∈ ws, wfStack w)
    (h : seg data offset ((ws.map serializeWitnessStack).flatten) rest) :
    parseWitnesses data ws.length offset =
      some (ws.map (List.map expectItem),
        offset + ((ws.map serializeWitnessStack).flatten).length) := by
  induction ws generalizing offset rest with
  | nil => simp [parseWitnesses]
  | cons w t ih =>
    obtain ⟨hwc, hwi⟩ := hwf w (by simp)
    have hflat : ((w :: t).map serializeWitnessStack).flatten
        = serializeWitnessStack w ++ (t.map serializeWitnessStack).flatten := by simp
    rw [hflat] at h
    set T := (t.map serializeWitnessStack).flatten with hT
    set I := ((w.map fun item => encode_varint item.length ++ item).flatten) with hI
    set eL := (encode_varint w.length).length with heL
    have hA : seg data offset (encode_varint w.length) (I ++ (T ++ rest)) := by
      have h1 := seg_split h
      rw [serializeWitnessStack] at h1
      have h2 := seg_split h1
      refine ⟨h2.1, ?_⟩
      simp only [h2.2, List.append_assoc]
    have hB : seg data (offset + eL) I (T ++ rest) :=
      seg_congr (seg_next hA) (by rw [heL])
    have hTseg : seg data (offset + eL + I.length) T rest :=
      seg_next hB
    have hepos := encode_varint_length_pos w.length
    have hlenA := seg_length hA
    have hno1 : ¬ data.length ≤ offset := by
      simp [List.length_append, ← heL] at hlenA
      omega
    have hvar : parse_varint data offset = some (w.length, offset + eL) := by
      have hp := seg_parse_varint hA (by omega)
      rwa [← heL] at hp
    have hitems : parseWitnessItems data w.length (offset + eL) =
        some (w.map expectItem, offset + eL + I.length) := by
      have hp := parseWitnessItems_seg w data (T ++ rest) (offset + eL) hwi
        (by rw [hI] at hB; exact hB)
      rw [hp, ← hI]
    have hrec := ih rest (offset + eL + I.length) (fun j hj => hwf j (by simp [hj])) hTseg
    simp only [List.length_cons, parseWitnesses, if_neg hno1, hvar, hitems, hrec,
      List.map_cons]
    have hTlen : T.length = (List.map (List.length ∘ serializeWitnessStack) t).sum := by
      rw [hT, List.length_flatten, List.map_map]
    simp [hflat, List.length_append, serializeWitnessStack, ← hI, ← heL]
    omega

/-- The record `parseBody` is expected to build for a serialized transaction:
all fields of `expectTx` except that locktime is still 0 and the marker/flag
triple is whatever the marker step produced. -/
def expectBody (tx : Transaction) (isw : Bool) (mk fl : Option Nat) (tsize : Nat) : ParsedTx :=
  { version := tx.version
    is_segwit := isw
    marker := mk
    flag := fl
    input_count := tx.inputs.length
    inputs := tx.inputs.map expectInput
    output_count := tx.outputs.length
    outputs := tx.outputs.map expectOutput
    witnesses := tx.witnesses.map (List.map expectItem)
    locktime := 0
    total_size := tsize }

/-- Assembling `parseBody` over a serialized transaction body: given the
version read, the marker/flag step's result, and the buffer laid out as
input count · inputs · output count · outputs · witness section, with the
locktime bytes as the remainder. -/
theorem parseBody_eq (tx : Transaction) (data : List Nat)
    (hwf : wfTx tx)
    (isw : Bool) (mk fl : Option Nat) (o1 : Nat)
    (hver : readLE data 0 4 = some tx.version)
    (hmf : parseMarkerFlag data = some (isw, mk, fl, o1))
    (hisw : isw = tx.has_segwit)
    (hseg : seg data o1
      (encode_varint tx.inputs.length ++ ((tx.inputs.map serializeInput).flatten
        ++ (encode_varint tx.outputs.length ++ ((tx.outputs.map serializeOutput).flatten
        ++ (if tx.has_segwit then (tx.witnesses.map serializeWitnessStack).flatten else [])))))
      (leBytes 4 tx.locktime)) :
    ∃ o6, parseBody data = some (expectBody tx isw mk fl data.length, o6) ∧
      seg data o6 (leBytes 4 tx.locktime) [] := by
  obtain ⟨hv, hinc, houtc, hwin, hwout, hlock, hwitif⟩ := hwf
  set cI := encode_varint tx.inputs.length with hcI
  set I := (tx.inputs.map serializeInput).flatten with hI
  set cO := encode_varint tx.outputs.length with hcO
  set O := (tx.outputs.map serializeOutput).flatten with hO
  set W := (if tx.has_segwit then (tx.witnesses.map serializeWitnessStack).flatten else [])
    with hW
  set L := leBytes 4 tx.locktime with hL
  have h1 : seg data o1 cI ((I ++ (cO ++ (O ++ W))) ++ L) := seg_split hseg
  have hc1 : parse_varint data o1 = some (tx.inputs.length, o1 + cI.length) := by
    have hp := seg_parse_varint h1 hinc
    rwa [← hcI] at hp
  have hIseg : seg data (o1 + cI.length) I ((cO ++ (O ++ W)) ++ L) := by
    have hn := seg_next h1
    refine ⟨hn.1, ?_⟩
    simp only [hn.2, List.append_assoc]
  have hinputs : parseInputs data tx.inputs.length (o1 + cI.length) =
      some (tx.inputs.map expectInput, o1 + cI.length + I.length) := by
    have hp := parseInputs_seg tx.inputs data _ (o1 + cI.length) hwin hIseg
    rwa [← hI] at hp
  have hCOseg : seg data (o1 + cI.length + I.length) cO ((O ++ W) ++ L) := by
    have hn := seg_next hIseg
    refine ⟨hn.1, ?_⟩
    simp only [hn.2, List.append_assoc]
  have hc2 : parse_varint data (o1 + cI.length + I.length) =
      some (tx.outputs.length, o1 + cI.length + I.length + cO.length) := by
    have hp := seg_parse_varint hCOseg houtc
    rwa [← hcO] at hp
  have hOseg : seg data (o1 + cI.length + I.length + cO.length) O (W ++ L) := by
    have hn := seg_next hCOseg
    refine ⟨hn.1, ?_⟩
    simp only [hn.2, List.append_assoc]
  have houtputs : parseOutputs data tx.outputs.length (o1 + cI.length + I.length + cO.length) =
      some (tx.outputs.map expectOutput,
        o1 + cI.length + I.length + cO.length + O.length) := by
    have hp := parseOutputs_seg tx.outputs data _ (o1 + cI.length + I.length + cO.length)
      hwout hOseg
    rwa [← hO] at hp
  set o5 := o1 + cI.length + I.length + cO.length + O.length with ho5
  have hWseg : seg data o5 W L := seg_next hOseg
  have hlenW := seg_length hWseg
  by_cases hsw : tx.has_segwit = true
  · -- witness-carrying: the gate is taken and the stacks are re-read
    have hwpair : tx.witnesses.length = tx.inputs.length ∧ ∀ w ∈ tx.witnesses, wfStack w := by
      simpa [hsw] using hwitif
    obtain ⟨hwcount, hwstacks⟩ := hwpair
    have hWval : W = (tx.witnesses.map serializeWitnessStack).flatten := by
      rw [hW, if_pos hsw]
    have ho5lt : o5 < data.length := by
      rw [hL, leBytes_length] at hlenW
      omega
    have hwitness : parseWitnesses data tx.inputs.length o5 =
        some (tx.witnesses.map (List.map expectItem), o5 + W.length) := by
      have hp := parseWitnesses_seg tx.witnesses data L o5 hwstacks (by rw [← hWval]; exact hWseg)
      rw [hwcount] at hp
      rw [hp, ← hWval]
    have hgate : (if isw = true ∧ o5 < data.length
        then parseWitnesses data tx.inputs.length o5
        else some ([], o5)) = some (tx.witnesses.map (List.map expectItem), o5 + W.length) := by
      rw [if_pos ⟨by rw [hisw, hsw], ho5lt⟩, hwitness]
    refine ⟨o5 + W.length, ?_, ?_⟩
    · simp only [parseBody, hver, hmf, hc1, hinputs, hc2, houtputs, hgate, expectBody]
    · have hn : seg data o5 W (L ++ []) := ⟨hWseg.1, by simp [hWseg.2]⟩
      exact seg_next hn
  · -- legacy: the gate is skipped
    have hswf : tx.has_segwit = false := by simpa using hsw
    have hwnil : tx.witnesses = [] := by simpa [hswf] using hwitif
    have hWval : W = [] := by rw [hW, hswf]; simp
    have hgate : (if isw = true ∧ o5 < data.length
        then parseWitnesses data tx.inputs.length o5
        else some ([], o5)) = some ([], o5) := by
      rw [if_neg]
      rw [hisw, hswf]
      simp
    refine ⟨o5, ?_, ?_⟩
    · simp only [parseBody, hver, hmf, hc1, hinputs, hc2, houtputs, hgate, hwnil,
        List.map_nil, expectBody]
    · have hn : seg data o5 W (L ++ []) := ⟨hWseg.1, by simp [hWseg.2]⟩
      have := seg_next hn
      rwa [hWval] at this

theorem encode_varint_head_ne_zero (n : Nat) (hn : 1 ≤ n) :
    ∃ b t', encode_varint n = b :: t' ∧ b ≠ 0 := by
  by_cases h1 : n < 0xfd
  · exact ⟨n, [], by simp [encode_varint, h1], by omega⟩
  · by_cases h2 : n ≤ 0xffff
    · exact ⟨0xfd, leBytes 2 n, by simp [encode_varint, h1, h2], by omega⟩
    · by_cases h3 : n ≤ 0xffffffff
      · exact ⟨0xfe, leBytes 4 n, by simp [encode_varint, h1, h2, h3], by omega⟩
      · exact ⟨0xff, leBytes 8 n, by simp [encode_varint, h1, h2, h3], by omega⟩

theorem parseMarkerFlag_of_ne {data : List Nat} {b : Nat}
    (hb : data[4]? = some b) (hne : b ≠ 0) :
    parseMarkerFlag data = some (false, none, none, 4) := by
  unfold parseMarkerFlag
  rw [hb]
  cases b with
  | zero => exact absurd rfl hne
  | succ k => rfl

/-- C1 (as amended): for every transaction (legacy or SegWit) within the
declared field widths — except a legacy transaction with zero inputs —
re-parsing the serialized bytes reproduces every field: version, inputs
(txid, vout, unlocking script, sequence), outputs (value, locking script),
witness stacks and locktime; a witness-carrying transaction with all-empty
witnesses keeps its marker/flag.  (The original claim, quantifying over
zero-input legacy transactions as well, fails: see the counterexample, where
the `0x00` input count is mistaken for a SegWit marker.) -/
theorem claim_C1_roundtrip_with_input (tx : Transaction) (hwf : wfTx tx)
    (hne : tx.has_segwit = false → tx.inputs ≠ []) :
    parse_segwit_transaction (serialize tx) = some (expectTx tx) := by
  have hwf' := hwf
  obtain ⟨hv, hinc, houtc, hwin, hwout, hlock, hwitif⟩ := hwf'
  set data := serialize tx with hdata
  set cI := encode_varint tx.inputs.length with hcI
  set I := (tx.inputs.map serializeInput).flatten with hI
  set cO := encode_varint tx.outputs.length with hcO
  set O := (tx.outputs.map serializeOutput).flatten with hO
  set W := (if tx.has_segwit then (tx.witnesses.map serializeWitnessStack).flatten else [])
    with hW
  set L := leBytes 4 tx.locktime with hL
  set MF := (if tx.has_segwit then ([0x00, 0x01] : List Nat) else []) with hMF
  have h0 : seg data 0 (leBytes 4 tx.version ++ (MF ++ (cI ++ (I ++ (cO ++ (O ++ W)))))) L := by
    refine ⟨Nat.zero_le _, ?_⟩
    rw [List.drop_zero, hdata]
    simp only [serialize, ← hcI, ← hI, ← hcO, ← hO, ← hW, ← hL, ← hMF, List.append_assoc]
  have hver : readLE data 0 4 = some tx.version :=
    seg_readLE (seg_split h0) (by norm_num; omega)
  have hA := seg_split h0
  have hA2 : seg data 0 (leBytes 4 tx.version)
      (MF ++ (cI ++ (I ++ (cO ++ (O ++ W))) ++ L)) :=
    ⟨hA.1, by simp only [hA.2, List.append_assoc]⟩
  have hMFseg : seg data 4 MF (cI ++ (I ++ (cO ++ (O ++ W))) ++ L) :=
    seg_congr (seg_next hA2) (by norm_num [leBytes_length])
  have hbodyseg : seg data (4 + MF.length) (cI ++ (I ++ (cO ++ (O ++ W)))) L :=
    seg_next hMFseg
  by_cases hsw : tx.has_segwit = true
  · have hMFval : MF = [0x00, 0x01] := by rw [hMF, if_pos hsw]
    have hMF2 : seg data 4 ([0x00] ++ [0x01]) (cI ++ (I ++ (cO ++ (O ++ W))) ++ L) := by
      rw [hMFval] at hMFseg
      exact hMFseg
    have hg4 : data[4]? = some 0 := seg_head (seg_split hMF2)
    have hg5 : data[5]? = some 1 := by
      have h5seg := seg_next (seg_split hMF2)
      exact seg_head h5seg
    have hmf : parseMarkerFlag data = some (true, some 0, some 1, 6) := by
      unfold parseMarkerFlag
      rw [hg4, hg5]
    have hseg6 : seg data 6 (cI ++ (I ++ (cO ++ (O ++ W)))) L :=
      seg_congr hbodyseg (by rw [hMFval]; rfl)
    obtain ⟨o6, hpb, hltseg⟩ := parseBody_eq tx data hwf true (some 0) (some 1) 6
      hver hmf hsw.symm (by rw [← hcI, ← hI, ← hcO, ← hO, ← hW, ← hL]; exact hseg6)
    have hlen := seg_length hltseg
    simp only [leBytes_length, List.length_nil] at hlen
    have hlt : leNat ((data.drop o6).take 4) = tx.locktime := by
      have ht := seg_take hltseg
      rw [leBytes_length] at ht
      rw [ht]
      exact leNat_leBytes 4 tx.locktime (by norm_num; omega)
    simp only [parse_segwit_transaction, hpb, if_pos (by omega : o6 + 4 ≤ data.length), hlt]
    simp [expectBody, expectTx, hsw, hdata]
  · have hswf : tx.has_segwit = false := by simpa using hsw
    have hMFval : MF = [] := by rw [hMF, hswf]; simp
    have hseg4 : seg data 4 (cI ++ (I ++ (cO ++ (O ++ W)))) L :=
      seg_congr hbodyseg (by rw [hMFval]; rfl)
    have hpos : 1 ≤ tx.inputs.length := by
      cases hl : tx.inputs with
      | nil => exact absurd hl (hne hswf)
      | cons a l => simp [hl]
    obtain ⟨b, t', hbt, hbne⟩ := encode_varint_head_ne_zero tx.inputs.length hpos
    have hg4 : data[4]? = some b := by
      have h1 := seg_split hseg4
      rw [hcI, hbt] at h1
      exact seg_head h1
    have hmf : parseMarkerFlag data = some (false, none, none, 4) :=
      parseMarkerFlag_of_ne hg4 hbne
    obtain ⟨o6, hpb, hltseg⟩ := parseBody_eq tx data hwf false none none 4
      hver hmf hswf.symm (by rw [← hcI, ← hI, ← hcO, ← hO, ← hW, ← hL]; exact hseg4)
    have hlen := seg_length hltseg
    simp only [leBytes_length, List.length_nil] at hlen
    have hlt : leNat ((data.drop o6).take 4) = tx.locktime := by
      have ht := seg_take hltseg
      rw [leBytes_length] at ht
      rw [ht]
      exact leNat_leBytes 4 tx.locktime (by norm_num; omega)
    simp only [parse_segwit_transaction, hpb, if_pos (by omega : o6 + 4 ≤ data.length), hlt]
    simp [expectBody, expectTx, hswf, hdata]

/-! ## Further parser facts used by individual claims -/

theorem readLE_short (data : List Nat) (offset w : Nat) (hw : 0 < w)
    (h : data.length < offset + w) : readLE data offset w = none := by
  unfold readLE
  rw [if_neg]
  simp only [List.length_take, List.length_drop]
  omega

/-- Every success path of `parseBody` leaves the locktime field at its
initialisation value 0 (the Python `locktime = 0` at line 140). -/
theorem parseBody_locktime_zero (data : List Nat) (t : ParsedTx) (o : Nat)
    (h : parseBody data = some (t, o)) : t.locktime = 0 := by
  unfold parseBody at h
  repeat' split at h
  all_goals simp_all
  exact h.1.symm ▸ rfl

/-! ## Claims -/

/-- C2: for every `n < 2^64`, decoding the standard compact VarInt encoding of
`n` (1 byte if `n < 0xfd`; `0xfd`+2-byte LE if `n ≤ 0xffff`; `0xfe`+4-byte LE
if `n ≤ 0xffffffff`; else `0xff`+8-byte LE) at offset 0 returns the pair
`(n, length of the encoding)`. -/
theorem claim_C2_varint_decode_encode (n : Nat) (hn : n < 2 ^ 64) :
    parse_varint (encode_varint n) 0 = some (n, (encode_varint n).length) := by
  have h : seg (encode_varint n) 0 (encode_varint n) [] :=
    ⟨Nat.zero_le _, by simp⟩
  have hp := seg_parse_varint h hn
  simpa using hp

/-- Witness for C2 at `n = 65536` (a 5-byte `0xfe` encoding). -/
theorem claim_C2_varint_decode_encode_witness :
    parse_varint (encode_varint 65536) 0 = some (65536, (encode_varint 65536).length) :=
  claim_C2_varint_decode_encode 65536 (by norm_num)

/-- The number of bytes (prefix included) that a VarInt whose prefix byte is
`b` occupies: 1, 3, 5 or 9. -/
def varintWidth (b : Nat) : Nat :=
  if b < 0xfd then 1 else if b = 0xfd then 3 else if b = 0xfe then 5 else 9

/-- When the byte at `offset` exists and at least the bytes its prefix
indicates are available, `parse_varint` succeeds and advances by exactly
`varintWidth`. -/
theorem parse_varint_available (data : List Nat) (offset b : Nat)
    (hb : data[offset]? = some b) (havail : offset + varintWidth b ≤ data.length) :
    ∃ n, parse_varint data offset = some (n, offset + varintWidth b) := by
  have hread : ∀ w, 0 < w → offset + 1 + w ≤ data.length →
      readLE data (offset + 1) w = some (leNat ((data.drop (offset + 1)).take w)) := by
    intro w hw hle
    unfold readLE
    rw [if_pos]
    simp only [List.length_take, List.length_drop]
    omega
  unfold varintWidth at havail
  simp only [parse_varint, hb]
  by_cases h1 : b < 0xfd
  · rw [if_pos h1]
    exact ⟨b, by simp [varintWidth, h1]⟩
  · rw [if_neg h1]
    by_cases h2 : b = 0xfd
    · rw [if_pos h2]
      rw [hread 2 (by norm_num) (by simp [h1, h2] at havail ⊢; omega)]
      exact ⟨leNat ((data.drop (offset + 1)).take 2), by simp [varintWidth, h1, h2]⟩
    · rw [if_neg h2]
      by_cases h3 : b = 0xfe
      · rw [if_pos h3]
        rw [hread 4 (by norm_num) (by simp [h1, h2, h3] at havail ⊢; omega)]
        exact ⟨leNat ((data.drop (offset + 1)).take 4), by simp [varintWidth, h1, h2, h3]⟩
      · rw [if_neg h3]
        rw [hread 8 (by norm_num) (by simp [h1, h2, h3] at havail ⊢; omega)]
        exact ⟨leNat ((data.drop (offset + 1)).take 8), by simp [varintWidth, h1, h2, h3]⟩

/-- Every successful VarInt decode advances by exactly 1, 3, 5 or 9 bytes. -/
theorem parse_varint_progress (data : List Nat) (offset n o' : Nat)
    (h : parse_varint data offset = some (n, o')) :
    (o' = offset + 1 ∨ o' = offset + 3 ∨ o' = offset + 5 ∨ o' = offset + 9) ∧
      offset < o' := by
  unfold parse_varint at h
  cases hg : data[offset]? with
  | none => rw [hg] at h; exact absurd h (by simp)
  | some b =>
    rw [hg] at h
    simp only at h
    by_cases h1 : b < 0xfd
    · rw [if_pos h1] at h
      simp only [Option.some.injEq, Prod.mk.injEq] at h
      obtain ⟨-, ho⟩ := h
      exact ⟨by omega, by omega⟩
    · rw [if_neg h1] at h
      by_cases h2 : b = 0xfd
      · rw [if_pos h2] at h
        cases hr : readLE data (offset + 1) 2 with
        | none => rw [hr] at h; exact absurd h (by simp)
        | some m =>
          rw [hr] at h
          simp at h
          obtain ⟨-, ho⟩ := h
          exact ⟨by omega, by omega⟩
      · rw [if_neg h2] at h
        by_cases h3 : b = 0xfe
        · rw [if_pos h3] at h
          cases hr : readLE data (offset + 1) 4 with
          | none => rw [hr] at h; exact absurd h (by simp)
          | some m =>
            rw [hr] at h
            simp at h
            obtain ⟨-, ho⟩ := h
            exact ⟨by omega, by omega⟩
        · rw [if_neg h3] at h
          cases hr : readLE data (offset + 1) 8 with
          | none => rw [hr] at h; exact absurd h (by simp)
          | some m =>
            rw [hr] at h
            simp at h
            obtain ⟨-, ho⟩ := h
            exact ⟨by omega, by omega⟩

/-- C9: for every byte buffer and offset at which the prefix byte and at
least the bytes it indicates are available, the VarInt decoder succeeds and
returns the offset advanced by exactly the prefix's width; and every
successful decode returns an offset strictly greater than the given one, the
increase being exactly 1, 3, 5, or 9 bytes — the progress guarantee that
makes every parsing loop advancing by VarInt decoding terminate. -/
theorem claim_C9_varint_progress (data : List Nat) (offset : Nat) :
    (∀ b, data[offset]? = some b → offset + varintWidth b ≤ data.length →
        ∃ n, parse_varint data offset = some (n, offset + varintWidth b)) ∧
      (∀ n o', parse_varint data offset = some (n, o') →
        (o' = offset + 1 ∨ o' = offset + 3 ∨ o' = offset + 5 ∨ o' = offset + 9) ∧
          offset < o') :=
  ⟨fun b hb ha => parse_varint_available data offset b hb ha,
   fun n o' h => parse_varint_progress data offset n o' h⟩

/-- Witness for C9 at the buffer `[0xfd, 0x2a, 0x00]`, offset 0: the prefix
`0xfd` indicates 3 bytes, which are available, and the decoder advances by
exactly 3. -/
theorem claim_C9_varint_progress_witness :
    (∃ n, parse_varint [0xfd, 0x2a, 0x00] 0 = some (n, 0 + varintWidth 0xfd)) ∧
      (((3 : Nat) = 0 + 1 ∨ (3 : Nat) = 0 + 3 ∨ (3 : Nat) = 0 + 5 ∨ (3 : Nat) = 0 + 9) ∧
        (0 : Nat) < 3) :=
  ⟨(claim_C9_varint_progress [0xfd, 0x2a, 0x00] 0).1 0xfd (by decide) (by decide),
   (claim_C9_varint_progress [0xfd, 0x2a, 0x00] 0).2 42 3 (by decide)⟩

/-! ### Concrete byte strings and transactions used by individual claims -/

/-- A legacy transaction with zero inputs and one output — every field within
the declared widths.  Its serialization starts `01000000 00 01 …`, so the
parser misreads the zero input count as a SegWit marker. -/
def txZeroInput : Transaction :=
  { version := 1
    inputs := []
    outputs := [{ value := 666, script_pubkey := [0x51] }]
    has_segwit := false
    witnesses := []
    locktime := 0 }

/-- The real testnet transaction built in
`src/code/chapter04/02_create_segwit_transaction.py` and re-parsed in
`03_parse_segwit_transaction.py` (txid `271cf6…84e3e6`): one P2WPKH input
(sequence `0xfffffffd`), one 666-satoshi P2WPKH output, witness =
[DER signature+hashtype, compressed pubkey]. -/
def txReal : Transaction :=
  { version := 2
    inputs := [{ txid := [0x14, 0x54, 0x43, 0x8e, 0x6f, 0x41, 0x7d, 0x71, 0x03, 0x33,
                          0xfb, 0xab, 0x11, 0x80, 0x58, 0xe2, 0x97, 0x21, 0x27, 0xbd,
                          0xd7, 0x90, 0x13, 0x4a, 0xb7, 0x49, 0x37, 0xfa, 0x9d, 0xdd,
                          0xbc, 0x48]
                 vout := 0
                 script_sig := []
                 sequence := 0xfffffffd }]
    outputs := [{ value := 666
                  script_pubkey := [0x00, 0x14, 0xc5, 0xb2, 0x8d, 0x6b, 0xba, 0x91,
                                    0xa2, 0x69, 0x3a, 0x9b, 0x18, 0x76, 0xbc, 0xd3,
                                    0x92, 0x93, 0x23, 0x89, 0x0f, 0xb2] }]
    has_segwit := true
    witnesses := [[[0x30, 0x44, 0x02, 0x20, 0x15, 0x09, 0x8d, 0x26, 0x91, 0x8b, 0x46,
                    0xab, 0x36, 0xb0, 0xd1, 0xb5, 0x0e, 0xe5, 0x02, 0xb3, 0x3d, 0x5c,
                    0x5b, 0x52, 0x57, 0xc7, 0x6b, 0xd6, 0xd0, 0x0c, 0xcb, 0x31, 0x45,
                    0x2c, 0x25, 0xae, 0x02, 0x20, 0x25, 0x6e, 0x82, 0xd4, 0xdf, 0x10,
                    0x98, 0x1f, 0x25, 0xf9, 0x1e, 0x52, 0x73, 0xbe, 0x39, 0xfc, 0xed,
                    0x8f, 0xe1, 0x64, 0x43, 0x46, 0x16, 0xc9, 0x4f, 0xa4, 0x8f, 0x35,
                    0x49, 0xe3, 0x3c, 0x03, 0x01],
                   [0x02, 0x89, 0x87, 0x11, 0xe6, 0xbf, 0x63, 0xf5, 0xcb, 0xe1, 0xb3,
                    0x8c, 0x05, 0xe8, 0x9d, 0x6c, 0x39, 0x1c, 0x59, 0xe9, 0xf8, 0xf6,
                    0x95, 0xda, 0x44, 0xbf, 0x3d, 0x20, 0xca, 0x67, 0x4c, 0x85, 0x19]]]
    locktime := 0 }

/-- A byte string whose marker byte is `0x00` but whose flag byte is `0x02`
(not `0x01`), followed by a complete one-input/one-output body, an empty
witness stack and a locktime. -/
def dataFlag2 : List Nat :=
  [1, 0, 0, 0] ++ [0, 2] ++ [1]
    ++ (List.replicate 32 0xaa ++ [0, 0, 0, 0] ++ [0] ++ [0xff, 0xff, 0xff, 0xff])
    ++ [1] ++ ([0x9a, 2, 0, 0, 0, 0, 0, 0] ++ [1, 0x51]) ++ [0] ++ [0, 0, 0, 0]

/-- A byte string declaring one input (which needs at least 41 more bytes)
while only 10 bytes remain after the input count. -/
def dataTruncated : List Nat :=
  [1, 0, 0, 0] ++ [0, 1] ++ [1] ++ List.replicate 10 0xaa

/-- A byte string that ends right after the output count, with zero bytes
left where the 4-byte locktime should start. -/
def dataNoLocktime : List Nat := [1, 0, 0, 0, 0, 1, 0, 0]

/-- What `parseBody` produces on `dataNoLocktime`. -/
def parsedNoLocktime : ParsedTx :=
  { version := 1
    is_segwit := true
    marker := some 0
    flag := some 1
    input_count := 0
    inputs := []
    output_count := 0
    outputs := []
    witnesses := []
    locktime := 0
    total_size := 8 }

/-- Witness for C1: re-parsing the serialized real testnet transaction
reproduces it field by field. -/
theorem claim_C1_roundtrip_with_input_witness :
    wfTx txReal ∧ (txReal.has_segwit = false → txReal.inputs ≠ []) ∧
      parse_segwit_transaction (serialize txReal) = some (expectTx txReal) :=
  ⟨by unfold wfTx wfInput wfOutput wfStack wfBytes txReal; decide,
   by decide,
   claim_C1_roundtrip_with_input txReal
     (by unfold wfTx wfInput wfOutput wfStack wfBytes txReal; decide)
     (by decide)⟩

/-- Counterexample to C1 as stated: `txZeroInput` is within all declared
widths, yet parsing its serialization does not reproduce it — the `0x00`
input count is consumed as a SegWit marker, so the parser returns a record
with `is_segwit = true`, `input_count = 154` and a garbage output list. -/
theorem claim_C1_counterexample :
    wfTx txZeroInput ∧
      parse_segwit_transaction (serialize txZeroInput) ≠ some (expectTx txZeroInput) :=
  ⟨by unfold wfTx wfInput wfOutput wfStack wfBytes txZeroInput; decide, by decide⟩

/-- C3 (as amended): when the byte after the version is `0x00` the parser
consumes it as the marker and unconditionally consumes the following byte as
the flag — any flag value `b` (not only `0x01`) is accepted and recorded, the
transaction is marked witness-carrying, and input-count parsing resumes at
offset 6; no `InvalidSegwitFlag` failure exists in the code. -/
theorem claim_C3_marker_any_flag (data : List Nat) (b : Nat)
    (h4 : data[4]? = some 0) (h5 : data[5]? = some b) :
    parseMarkerFlag data = some (true, some 0, some b, 6) := by
  unfold parseMarkerFlag
  rw [h4, h5]

/-- Witness for C3's amended theorem at flag byte `0x07`. -/
theorem claim_C3_marker_any_flag_witness :
    parseMarkerFlag [1, 0, 0, 0, 0, 7] = some (true, some 0, some 7, 6) :=
  claim_C3_marker_any_flag [1, 0, 0, 0, 0, 7] 7 (by decide) (by decide)

/-- Counterexample to C3 as stated: on `dataFlag2` the marker is present and
the flag byte is `0x02 ≠ 0x01`, yet the full parse *succeeds* (no
`InvalidSegwitFlag`), marking the transaction witness-carrying and recording
the flag verbatim. -/
theorem claim_C3_counterexample :
    dataFlag2[4]? = some 0 ∧ dataFlag2[5]? = some 2 ∧
      (parse_segwit_transaction dataFlag2).map ParsedTx.is_segwit = some true ∧
      (parse_segwit_transaction dataFlag2).map ParsedTx.flag = some (some 2) := by
  decide

/-- C4 (as amended): when a VarInt prefix byte announces a multi-byte payload
that extends past the end of the buffer, the VarInt decoder itself fails (an
uncaught `struct.error`, not a named `TruncatedInput`). The full-transaction
parser, by contrast, does not fail on truncated variable-length content — see
the counterexample. -/
theorem claim_C4_varint_truncated (data : List Nat) (offset b : Nat)
    (hb : data[offset]? = some b) (hfd : 0xfd ≤ b)
    (hshort : data.length < offset + 1 + (if b = 0xfd then 2 else if b = 0xfe then 4 else 8)) :
    parse_varint data offset = none := by
  simp only [parse_varint, hb]
  rw [if_neg (by omega)]
  by_cases h2 : b = 0xfd
  · rw [if_pos h2]
    rw [readLE_short data (offset + 1) 2 (by norm_num) (by rw [h2] at hshort; simp at hshort; omega)]
    rfl
  · rw [if_neg h2]
    by_cases h3 : b = 0xfe
    · rw [if_pos h3]
      rw [readLE_short data (offset + 1) 4 (by norm_num) (by rw [h3] at hshort; simp [h2] at hshort; omega)]
      rfl
    · rw [if_neg h3]
      rw [readLE_short data (offset + 1) 8 (by norm_num) (by simp [h2, h3] at hshort; omega)]
      rfl

/-- Witness for C4's amended theorem: a `0xfd` prefix with only one payload
byte makes the decoder fail. -/
theorem claim_C4_varint_truncated_witness :
    parse_varint [0xfd, 0x01] 0 = none :=
  claim_C4_varint_truncated [0xfd, 0x01] 0 0xfd (by decide) (by decide) (by decide)

/-- Counterexample to C4 as stated: on `dataTruncated` the input count claims
one input (at least 41 bytes) with only 10 bytes left, yet the full parse
*succeeds* and returns a partial result (`input_count = 1` but no inputs),
rather than failing with no partial parse retained. -/
theorem claim_C4_counterexample :
    (parse_segwit_transaction dataTruncated).map ParsedTx.input_count = some 1 ∧
      (parse_segwit_transaction dataTruncated).map ParsedTx.inputs = some [] ∧
      dataTruncated.length = 17 := by
  decide

/-- C10: when fewer than 4 bytes remain at the position where the locktime
field should start, `parse_segwit_transaction` still succeeds, returning the
body's record with its locktime field left at 0 (rendered `"00000000"`),
rather than reporting an error. -/
theorem claim_C10_locktime_default (data : List Nat) (t : ParsedTx) (offset : Nat)
    (hb : parseBody data = some (t, offset)) (hshort : data.length < offset + 4) :
    parse_segwit_transaction data = some t ∧ t.locktime = 0 := by
  refine ⟨?_, parseBody_locktime_zero data t offset hb⟩
  simp only [parse_segwit_transaction, hb]
  rw [if_neg (by omega)]

/-- Witness for C10 on `dataNoLocktime` (body ends at offset 8 of an 8-byte
buffer). -/
theorem claim_C10_locktime_default_witness :
    parse_segwit_transaction dataNoLocktime = some parsedNoLocktime ∧
      parsedNoLocktime.locktime = 0 :=
  claim_C10_locktime_default dataNoLocktime parsedNoLocktime 8 (by decide) (by decide)

/-! ## C6: marker/flag emission by the serializer (modelled from the spec) -/

/-- The unsigned SegWit transaction of
`src/code/chapter04/02_create_segwit_transaction.py` phase 1: SegWit enabled,
no witness data attached yet, one input (sequence `0xfffffffd`), one
666-satoshi P2WPKH output. -/
def txUnsigned : Transaction :=
  { version := 2
    inputs := [{ txid := [0x14, 0x54, 0x43, 0x8e, 0x6f, 0x41, 0x7d, 0x71, 0x03, 0x33,
                          0xfb, 0xab, 0x11, 0x80, 0x58, 0xe2, 0x97, 0x21, 0x27, 0xbd,
                          0xd7, 0x90, 0x13, 0x4a, 0xb7, 0x49, 0x37, 0xfa, 0x9d, 0xdd,
                          0xbc, 0x48]
                 vout := 0
                 script_sig := []
                 sequence := 0xfffffffd }]
    outputs := [{ value := 666
                  script_pubkey := [0x00, 0x14, 0xc5, 0xb2, 0x8d, 0x6b, 0xba, 0x91,
                                    0xa2, 0x69, 0x3a, 0x9b, 0x18, 0x76, 0xbc, 0xd3,
                                    0x92, 0x93, 0x23, 0x89, 0x0f, 0xb2] }]
    has_segwit := true
    witnesses := []
    locktime := 0 }

/-- C6: every witness-carrying transaction serializes with the marker byte
`0x00` at index 4 (the 5th byte) and the flag byte `0x01` at index 5 (the 6th
byte), regardless of its witness data — including when no witness entry is
attached at all. -/
theorem claim_C6_marker_flag_always (tx : Transaction) (h : tx.has_segwit = true) :
    (serialize tx)[4]? = some 0 ∧ (serialize tx)[5]? = some 1 := by
  have h0 : seg (serialize tx) 0 (leBytes 4 tx.version)
      ([0x00] ++ ([0x01] ++ (encode_varint tx.inputs.length
        ++ ((tx.inputs.map serializeInput).flatten
        ++ (encode_varint tx.outputs.length
        ++ ((tx.outputs.map serializeOutput).flatten
        ++ ((tx.witnesses.map serializeWitnessStack).flatten
        ++ leBytes 4 tx.locktime))))))) :=
    ⟨Nat.zero_le _, by simp [serialize, h, List.append_assoc]⟩
  have h4 : seg (serialize tx) 4 [0x00] ([0x01] ++ (encode_varint tx.inputs.length
      ++ ((tx.inputs.map serializeInput).flatten
      ++ (encode_varint tx.outputs.length
      ++ ((tx.outputs.map serializeOutput).flatten
      ++ ((tx.witnesses.map serializeWitnessStack).flatten
      ++ leBytes 4 tx.locktime)))))) :=
    seg_congr (seg_next h0) (by norm_num [leBytes_length])
  have h5 : seg (serialize tx) 5 [0x01] (encode_varint tx.inputs.length
      ++ ((tx.inputs.map serializeInput).flatten
      ++ (encode_varint tx.outputs.length
      ++ ((tx.outputs.map serializeOutput).flatten
      ++ ((tx.witnesses.map serializeWitnessStack).flatten
      ++ leBytes 4 tx.locktime))))) :=
    seg_congr (seg_next h4) (by norm_num)
  exact ⟨seg_head h4, seg_head h5⟩

/-- Witness for C6 on the concrete 666-satoshi P2WPKH scenario: serialized
with SegWit enabled and no witness data, the 5th byte is `0x00` and the 6th
is `0x01`. -/
theorem claim_C6_marker_flag_always_witness :
    (serialize txUnsigned)[4]? = some 0 ∧ (serialize txUnsigned)[5]? = some 1 :=
  claim_C6_marker_flag_always txUnsigned rfl

/-! ## C5: the BIP341 key-path sighash requires full per-input spend data

Modelled from the spec: the repository's chapter05 script delegates the digest
to the external library (`sign_taproot_input(tx, 0, scripts, amounts)`), so
the digest routine is not under `src/`; §4.4 of the spec defines it.  Hashing
itself is the external hash collaborator (§6), passed in as functions. -/

/-- The sighash error kinds of spec §7 raised by the digest algorithms. -/
inductive SighashError where
  | IncompleteSpendData
  | MissingInputAmount
deriving Repr, DecidableEq

/-- ASCII bytes of the BIP341 tag `"TapSighash"`. -/
def tapSighashTag : List Nat := [84, 97, 112, 83, 105, 103, 104, 97, 115, 104]

/-- Modelled from the spec (§4.4 BIP341, key-path): requires, for every input
of the transaction, its amount and its scriptPubKey — fails with
`IncompleteSpendData` if any is missing, producing no digest; otherwise the
tagged preimage covers epoch `0x00`, the sighash type byte, version,
locktime, `sha256` of all outpoints, of all 8-byte LE amounts, of all
length-prefixed scriptPubKeys, of all sequences, the spend-type byte `0x00`
(key path, no annex) and the 4-byte LE input index. -/
def taproot_sighash (sha256 : List Nat → List Nat)
    (tagged_hash : List Nat → List Nat → List Nat)
    (tx : Transaction) (index : Nat) (scripts : List (List Nat))
    (amounts : List Nat) (hash_type : Nat) : Except SighashError (List Nat) :=
  if amounts.length < tx.inputs.length ∨ scripts.length < tx.inputs.length then
    Except.error SighashError.IncompleteSpendData
  else
    Except.ok (tagged_hash tapSighashTag
      ([0x00] ++ [hash_type] ++ leBytes 4 tx.version ++ leBytes 4 tx.locktime
        ++ sha256 ((tx.inputs.map fun i => i.txid.reverse ++ leBytes 4 i.vout).flatten)
        ++ sha256 ((amounts.map (leBytes 8)).flatten)
        ++ sha256 ((scripts.map fun s => encode_varint s.length ++ s).flatten)
        ++ sha256 ((tx.inputs.map fun i => leBytes 4 i.sequence).flatten)
        ++ [0x00] ++ leBytes 4 index))

/-- A one-input Taproot-style transaction skeleton (chapter05's
`Transaction([txin], [txout], has_segwit=True)` shape). -/
def txTaproot : Transaction :=
  { version := 2
    inputs := [{ txid := [0xb0, 0xf4, 0x9d, 0x2f, 0x30, 0xf8, 0x06, 0x78, 0xc6, 0x05,
                          0x3a, 0xf0, 0x9f, 0x06, 0x11, 0x42, 0x0a, 0xac, 0xf2, 0x01,
                          0x05, 0x59, 0x83, 0x30, 0xcb, 0x3f, 0x0c, 0xcb, 0x8a, 0xc7,
                          0xd7, 0xf0]
                 vout := 0
                 script_sig := []
                 sequence := 0xffffffff }]
    outputs := [{ value := 29000, script_pubkey := [] }]
    has_segwit := true
    witnesses := []
    locktime := 0 }

/-- C5: the BIP341 key-path digest needs every input's amount and
scriptPubKey; called with an amounts array or a scripts array shorter than
the input count it fails with `IncompleteSpendData` and produces no digest,
for any hash collaborators, input index and sighash type. -/
theorem claim_C5_incomplete_spend_data
    (sha256 : List Nat → List Nat) (tagged_hash : List Nat → List Nat → List Nat)
    (tx : Transaction) (index : Nat) (scripts : List (List Nat))
    (amounts : List Nat) (hash_type : Nat)
    (h : amounts.length < tx.inputs.length ∨ scripts.length < tx.inputs.length) :
    taproot_sighash sha256 tagged_hash tx index scripts amounts hash_type =
      Except.error SighashError.IncompleteSpendData := by
  unfold taproot_sighash
  rw [if_pos h]

/-- Witness for C5: empty spend-data arrays against the one-input transaction. -/
theorem claim_C5_incomplete_spend_data_witness :
    ([] : List Nat).length < txTaproot.inputs.length ∧
      taproot_sighash (fun _ => []) (fun _ _ => []) txTaproot 0 [] [] 0 =
        Except.error SighashError.IncompleteSpendData :=
  ⟨by decide,
   claim_C5_incomplete_spend_data (fun _ => []) (fun _ _ => []) txTaproot 0 [] [] 0
     (Or.inl (by decide))⟩

/-! ## C7: relative-timelock Sequence encodings

Modelled from the spec: the chapter03 scripts call the external library's
`Sequence(TYPE_RELATIVE_TIMELOCK, 3)` with `.for_script()` (CSV operand in
the redeem script) and `.for_input_sequence()` (raw input field), so the
helper itself is not under `src/`; §3 of the spec defines it per BIP68 with
the script-operand encoding kept textually distinct. -/

/-- Block-based or time-based relative lock. -/
inductive TimelockType where
  | blocks
  | seconds
deriving Repr, DecidableEq

/-- Modelled from the spec (§3, BIP68): the raw 4-byte input sequence value —
bits 0–15 hold the value, bit 22 set means time-based, bit 31 (disable)
clear.  For a block lock the field value is just the block count. -/
def sequence_for_input (t : TimelockType) (v : Nat) : Nat :=
  match t with
  | .blocks => v
  | .seconds => 2 ^ 22 + v

/-- The wire bytes of the raw input-sequence field (4-byte little-endian). -/
def sequence_for_input_bytes (t : TimelockType) (v : Nat) : List Nat :=
  leBytes 4 (sequence_for_input t v)

/-- Width-bounded little-endian bytes of `m` with leading (most-significant)
zeros stripped — the magnitude part of a minimal script number. -/
def minimalBytes : Nat → Nat → List Nat
  | 0, _ => []
  | w + 1, m => if m = 0 then [] else (m % 256) :: minimalBytes w (m / 256)

/-- Minimal CScriptNum encoding of a non-negative value: little-endian
magnitude, a `0x00` sign byte appended only when the top byte would read as
negative. -/
def scriptNum (n : Nat) : List Nat :=
  let b := minimalBytes 9 n
  match b.getLast? with
  | some last => if 0x80 ≤ last then b ++ [0x00] else b
  | none => b

/-- Modelled from the spec (§3, BIP112): the `OP_CHECKSEQUENCEVERIFY` operand
pushes the same BIP68 value as a minimally-encoded script number instead of a
fixed 4-byte field. -/
def sequence_for_script (t : TimelockType) (v : Nat) : List Nat :=
  scriptNum (sequence_for_input t v)

/-- Decoding the raw 4-byte sequence field per BIP68: `none` when the
disable bit (31) is set; otherwise the type from bit 22 and the value from
bits 0–15. -/
def decode_sequence_field (bytes : List Nat) : Option (TimelockType × Nat) :=
  if bytes.length = 4 then
    let v := leNat bytes
    if v.testBit 31 then none
    else some (if v.testBit 22 then TimelockType.seconds else TimelockType.blocks, v % 2 ^ 16)
  else none

/-- Decoding a CSV script operand per BIP112: the pushed script number,
interpreted with the same bit layout (disable bit 31, type bit 22,
value bits 0–15). -/
def decode_csv_operand (bytes : List Nat) : Option (TimelockType × Nat) :=
  let v := leNat bytes
  if v.testBit 31 then none
  else some (if v.testBit 22 then TimelockType.seconds else TimelockType.blocks, v % 2 ^ 16)

/-- C7: for a 3-block relative lock, the raw input-sequence encoding
(`03000000`, 4 bytes) and the CSV script-operand encoding (`03`, a 1-byte
minimal script number) are distinct bit patterns, and each decodes back to a
block-based 3-block lock. -/
theorem claim_C7_sequence_encodings :
    sequence_for_input_bytes TimelockType.blocks 3 ≠ sequence_for_script TimelockType.blocks 3 ∧
      decode_sequence_field (sequence_for_input_bytes TimelockType.blocks 3) =
        some (TimelockType.blocks, 3) ∧
      decode_csv_operand (sequence_for_script TimelockType.blocks 3) =
        some (TimelockType.blocks, 3) := by
  decide

/-! ## C8: 2-of-3 multisig redeem script and its P2SH locking script

Modelled from the spec: `src/code/chapter03/01_create_multisig_p2sh.py`
builds `Script(['OP_2', pk1, pk2, pk3, 'OP_3', 'OP_CHECKMULTISIG'])` and
`P2shAddress.from_script(...)` through the external library, so script
serialization and the P2SH template are not under `src/`; §4.2 (push rules,
opcode bytes) and §4.3 (P2SH row) of the spec define them.  `hash160` is the
external hash collaborator (§6). -/

/-- A script item: an opcode byte or a data push. -/
inductive ScriptItem where
  | op (code : Nat)
  | push (bytes : List Nat)
deriving Repr, DecidableEq

def OP_2 : Nat := 0x52
def OP_3 : Nat := 0x53
def OP_CHECKMULTISIG : Nat := 0xae
def OP_HASH160 : Nat := 0xa9
def OP_EQUAL : Nat := 0x87

/-- Modelled from the spec (§4.2): the minimal-length push prefix — a direct
length byte for ≤ 75 bytes, `OP_PUSHDATA1/2/4` beyond. -/
def pushPrefix (l : Nat) : List Nat :=
  if l ≤ 75 then [l]
  else if l ≤ 0xff then [0x4c, l]
  else if l ≤ 0xffff then 0x4d :: leBytes 2 l
  else 0x4e :: leBytes 4 l

/-- Modelled from the spec (§4.2): script serialization — opcodes emit their
single byte, data pushes emit the minimal push prefix then the raw bytes. -/
def script_to_bytes (s : List ScriptItem) : List Nat :=
  (s.map fun item => match item with
    | ScriptItem.op c => [c]
    | ScriptItem.push b => pushPrefix b.length ++ b).flatten

/-- The 2-of-3 multisig redeem script of chapter03/01:
`OP_2 <pk1> <pk2> <pk3> OP_3 OP_CHECKMULTISIG`. -/
def multisig_redeem_script (pk1 pk2 pk3 : List Nat) : List ScriptItem :=
  [ScriptItem.op OP_2, ScriptItem.push pk1, ScriptItem.push pk2, ScriptItem.push pk3,
   ScriptItem.op OP_3, ScriptItem.op OP_CHECKMULTISIG]

/-- Modelled from the spec (§4.3): the P2SH locking script derived from a
redeem script — `OP_HASH160 <hash160(redeem_script_bytes)> OP_EQUAL`. -/
def p2sh_from_redeem (hash160 : List Nat → List Nat) (redeem : List ScriptItem) :
    List ScriptItem :=
  [ScriptItem.op OP_HASH160, ScriptItem.push (hash160 (script_to_bytes redeem)),
   ScriptItem.op OP_EQUAL]

/-- C8: a 2-of-3 multisig redeem script over three 33-byte public keys
serializes as `OP_2`, three 33-byte pushes, `OP_3`, `OP_CHECKMULTISIG`, and
the P2SH locking script derived from it serializes as
`OP_HASH160 <20-byte hash160 of the redeem bytes> OP_EQUAL`, for any hash160
collaborator returning 20 bytes. -/
theorem claim_C8_multisig_p2sh (hash160 : List Nat → List Nat) (pk1 pk2 pk3 : List Nat)
    (h1 : pk1.length = 33) (h2 : pk2.length = 33) (h3 : pk3.length = 33)
    (hh : (hash160 (script_to_bytes (multisig_redeem_script pk1 pk2 pk3))).length = 20) :
    script_to_bytes (multisig_redeem_script pk1 pk2 pk3) =
      [0x52, 33] ++ pk1 ++ [33] ++ pk2 ++ [33] ++ pk3 ++ [0x53, 0xae] ∧
    script_to_bytes (p2sh_from_redeem hash160 (multisig_redeem_script pk1 pk2 pk3)) =
      [0xa9, 20] ++ hash160 (script_to_bytes (multisig_redeem_script pk1 pk2 pk3)) ++ [0x87] := by
  constructor
  · simp [script_to_bytes, multisig_redeem_script, pushPrefix, h1, h2, h3,
      OP_2, OP_3, OP_CHECKMULTISIG]
  · unfold p2sh_from_redeem
    generalize hG : hash160 (script_to_bytes (multisig_redeem_script pk1 pk2 pk3)) = H at hh ⊢
    simp [script_to_bytes, pushPrefix, hh, OP_HASH160, OP_EQUAL]

/-- Alice's compressed public key from chapter03/01. -/
def alicePk : List Nat :=
  [0x02, 0x89, 0x87, 0x11, 0xe6, 0xbf, 0x63, 0xf5, 0xcb, 0xe1, 0xb3,
   0x8c, 0x05, 0xe8, 0x9d, 0x6c, 0x39, 0x1c, 0x59, 0xe9, 0xf8, 0xf6,
   0x95, 0xda, 0x44, 0xbf, 0x3d, 0x20, 0xca, 0x67, 0x4c, 0x85, 0x19]

/-- Bob's compressed public key from chapter03/01. -/
def bobPk : List Nat :=
  [0x02, 0x84, 0xb5, 0x95, 0x16, 0x09, 0xb7, 0x66, 0x19, 0xa1, 0xce,
   0x7f, 0x48, 0x97, 0x7b, 0x43, 0x12, 0xeb, 0xe2, 0x26, 0x98, 0x71,
   0x66, 0xef, 0x04, 0x4b, 0xfb, 0x37, 0x4c, 0xee, 0xf6, 0x3a, 0xf5]

/-- Carol's compressed public key from chapter03/01. -/
def carolPk : List Nat :=
  [0x03, 0x17, 0xaa, 0x89, 0xb4, 0x3f, 0x46, 0xa0, 0xc0, 0xcd, 0xbd,
   0x9a, 0x30, 0x2f, 0x25, 0x08, 0x33, 0x7b, 0xa6, 0xa0, 0x6d, 0x12,
   0x38, 0x54, 0x48, 0x1b, 0x52, 0xde, 0x9c, 0x20, 0x99, 0x60, 0x11]

/-- A stand-in 20-byte hash collaborator for the witness instantiation. -/
def dummyHash160 : List Nat → List Nat := fun _ => List.replicate 20 0x07

/-- Witness for C8 on the three chapter03/01 public keys with a concrete
20-byte hash collaborator. -/
theorem claim_C8_multisig_p2sh_witness :
    alicePk.length = 33 ∧ bobPk.length = 33 ∧ carolPk.length = 33 ∧
      (dummyHash160 (script_to_bytes (multisig_redeem_script alicePk bobPk carolPk))).length = 20 ∧
      (script_to_bytes (multisig_redeem_script alicePk bobPk carolPk) =
          [0x52, 33] ++ alicePk ++ [33] ++ bobPk ++ [33] ++ carolPk ++ [0x53, 0xae] ∧
        script_to_bytes (p2sh_from_redeem dummyHash160 (multisig_redeem_script alicePk bobPk carolPk)) =
          [0xa9, 20] ++ dummyHash160 (script_to_bytes (multisig_redeem_script alicePk bobPk carolPk)) ++ [0x87]) :=
  ⟨by decide, by decide, by decide, by decide,
   claim_C8_multisig_p2sh dummyHash160 alicePk bobPk carolPk
     (by decide) (by decide) (by decide) (by decide)⟩

end MasteringTaproot
